import Mathlib

/-!
Shallow embedding of the `CloudFlareImages` client (src/cloudflare.py) and
proofs about its observable request-construction behaviour.

Modelling conventions:
- Python strings are Lean `String`; `str.lower()` is modelled char-wise on
  ASCII (`lowerChar`), matching Python on all ASCII inputs.
- `str.replace(pat, rep)` is modelled by `pyReplace`, which replaces every
  non-overlapping occurrence left to right (for a non-empty pattern, as in
  all uses here).
- An outgoing HTTP request is a `Request`: method, URL, header list, body
  (query-parameter dict, JSON document, or multipart files), and how the
  response is read (`.json()` vs `.text`), recorded as `RespMode`.
- The filesystem seen by `upload` is a partial map `String → Option String`
  from path to file content; `open(path, "rb")` succeeding means the map is
  `some` at the path.
- Python dict / JSON values appearing in payloads are the inductive `JVal`.
-/

namespace CloudFlareImages

/-- Char-wise ASCII lowering, the behaviour of Python `str.lower()` on
ASCII characters. -/
def lowerChar (c : Char) : Char :=
  if 'A' ≤ c ∧ c ≤ 'Z' then Char.ofNat (c.toNat + 32) else c

/-- Model of Python `str.lower()` (ASCII fragment). -/
def strLower (s : String) : String := ⟨s.data.map lowerChar⟩

/-- Model of Python `str.startswith`. -/
def strStartsWith (s p : String) : Bool := List.isPrefixOf p.data s.data

/-- Worker for `pyReplace`: scans left to right; a positive `skip` count
drops characters already consumed by an emitted replacement. At `skip = 0`,
a match of `pat` emits `rep` and schedules the remaining `pat.length - 1`
pattern characters to be dropped; otherwise the character is copied. -/
def replaceAllAux (pat rep : List Char) : List Char → Nat → List Char
  | [], _ => []
  | _ :: cs, Nat.succ k => replaceAllAux pat rep cs k
  | c :: cs, 0 =>
    if pat ≠ [] ∧ List.isPrefixOf pat (c :: cs) then
      rep ++ replaceAllAux pat rep cs (pat.length - 1)
    else
      c :: replaceAllAux pat rep cs 0

/-- Model of Python `str.replace`: every non-overlapping occurrence of
`pat` is replaced by `rep`, scanning left to right. (An empty pattern is
treated as the identity; the only pattern used in the source is
`"http://"`.) -/
def pyReplace (s pat rep : String) : String := ⟨replaceAllAux pat.data rep.data s.data 0⟩

/-- JSON-like values used in request payloads (Python dict / JSON fragment). -/
inductive JVal where
  | str : String → JVal
  | num : Int → JVal
  | bool : Bool → JVal
  | obj : List (String × JVal) → JVal

inductive Method where
  | get | post | delete
deriving DecidableEq

/-- How the Python code reads the HTTP response: `.json()` or `.text`. -/
inductive RespMode where
  | json | text
deriving DecidableEq

/-- The data attached to an outgoing request: nothing, a query-parameter
dict (`params=`), a JSON document (`json=`), or multipart files
(`files=`, file name paired with file content). -/
inductive Body where
  | empty : Body
  | params : List (String × JVal) → Body
  | json : JVal → Body
  | files : List (String × String) → Body

/-- One outgoing HTTP request as the Python code constructs it. -/
structure Request where
  method : Method
  url : String
  headers : List (String × String)
  body : Body
  respMode : RespMode

/-- The credential set held by the client (`__init__`). -/
structure Client where
  apiKey : String
  accountId : String
  email : String
  accountHash : String

def ENDPOINT_BASE : String := "https://api.cloudflare.com/client/v4"

def SUPPORTED_FORMATS : List String := [".png", ".gif", ".jpeg", ".jpg", ".webp", ".svg"]

def MAX_WIDTH : Nat := 10000
def MAX_HEIGHT : Nat := 10000
def MAX_SIZE_MB : Nat := 10

/-- `self.requestHeaders` as built in `__init__`. -/
def requestHeaders (c : Client) : List (String × String) :=
  [("X-Auth-Key", c.apiKey), ("X-Auth-Email", c.email)]

/-- The extension component of `os.path.splitext(path)` (posixpath): the
suffix starting at the last `.` of the final path component, unless every
character of that component before the last `.` is itself a `.` (then the
extension is empty). -/
def splitextExt (path : String) : String :=
  let base := (path.data.reverse.takeWhile (fun c => c ≠ '/')).reverse
  let revBase := base.reverse
  if '.' ∈ revBase then
    let afterDotRev := revBase.takeWhile (fun c => c ≠ '.')
    let beforeDot := (revBase.drop (afterDotRev.length + 1)).reverse
    if beforeDot.any (fun c => c ≠ '.') then ⟨'.' :: afterDotRev.reverse⟩ else ""
  else ""

/-- `_checkIfImageSupported` (lines 32-34): lower-cased `splitext`
extension tested against `SUPPORTED_FORMATS`. -/
def _checkIfImageSupported (path : String) : Bool :=
  let file_extension := strLower (splitextExt path)
  SUPPORTED_FORMATS.contains file_extension

/-- `listImages` (lines 36-44): the pagination arguments are accepted but
the constructed GET request does not use them. -/
def listImages (c : Client) (page : Nat) (perPage : Nat) : Request :=
  { method := .get
    url := ENDPOINT_BASE ++ "/accounts/" ++ c.accountId ++ "/images/v1"
    headers := requestHeaders c
    body := .empty
    respMode := .json }

/-- The query-parameter dict built by `createDirectUploadLink`
(lines 50-56), in insertion order. -/
def createDirectUploadLinkPayload (requireSignedURLs : Bool) (metaData : Option JVal)
    (expiry : Option String) : List (String × JVal) :=
  let payload : List (String × JVal) := [("requireSignedURLs", JVal.bool requireSignedURLs)]
  let payload := match metaData with
    | some m => payload ++ [("metadata", m)]
    | none => payload
  match expiry with
  | some e => payload ++ [("expiry", JVal.str e)]
  | none => payload

/-- `createDirectUploadLink` (lines 46-62). -/
def createDirectUploadLink (c : Client) (requireSignedURLs : Bool) (metaData : Option JVal)
    (expiry : Option String) : Request :=
  { method := .post
    url := ENDPOINT_BASE ++ "/accounts/" ++ c.accountId ++ "/images/v2/direct_upload"
    headers := requestHeaders c
    body := .params (createDirectUploadLinkPayload requireSignedURLs metaData expiry)
    respMode := .json }

/-- The errors `upload` can raise before any request goes out. -/
inductive UploadErr where
  | ioError
  | keyError
  | typeError
deriving DecidableEq

/-- Externally visible events of an `upload` call. -/
inductive Event where
  | fileOpen : String → Event
  | httpRequest : Request → Event

/-- Python dict subscript `d[k]`: `KeyError` when the key is absent,
`TypeError` when the subscripted value is not a dict. -/
def jSub (v : JVal) (k : String) : Except UploadErr JVal :=
  match v with
  | .obj kvs =>
    match kvs.lookup k with
    | some w => Except.ok w
    | none => Except.error .keyError
  | _ => Except.error .typeError

/-- `directUploadResponse["result"]["uploadURL"]`; the value must be a
string to serve as a request URL. -/
def descUploadURL (desc : JVal) : Except UploadErr String :=
  match jSub desc "result" with
  | Except.error e => Except.error e
  | Except.ok r =>
    match jSub r "uploadURL" with
    | Except.error e => Except.error e
    | Except.ok u =>
      match u with
      | JVal.str s => Except.ok s
      | _ => Except.error .typeError

/-- The multipart POST `upload` sends to the one-time upload URL
(lines 69-73). -/
def uploadRequest (c : Client) (url content : String) : Request :=
  { method := .post
    url := url
    headers := requestHeaders c
    body := .files [("file", content)]
    respMode := .text }

/-- `upload` (lines 64-73). Line 67 opens the file first; then the
descriptor subscripts are evaluated and the POST issued (lines 69-73),
whose raw response text is returned. The result is the trace of events
together with the outcome. -/
def upload (c : Client) (fs : String → Option String) (directUploadResponse : JVal)
    (imagePath : String) (respText : String) : List Event × Except UploadErr String :=
  match fs imagePath with
  | none => ([], Except.error .ioError)
  | some content =>
    match descUploadURL directUploadResponse with
    | Except.error e => ([Event.fileOpen imagePath], Except.error e)
    | Except.ok url =>
      ([Event.fileOpen imagePath, Event.httpRequest (uploadRequest c url content)],
       Except.ok respText)

/-- `listVariants` (lines 75-80). -/
def listVariants (c : Client) : Request :=
  { method := .get
    url := ENDPOINT_BASE ++ "/accounts/" ++ c.accountId ++ "/images/v1/variants"
    headers := requestHeaders c
    body := .empty
    respMode := .json }

/-- The nested JSON payload of `createVariant` (lines 92-101). -/
def createVariantPayload (name fitType : String) (width height : Int)
    (metaDataToSave : String) (neverRequireSignedURLs : Bool) : JVal :=
  .obj [
    ("id", .str name),
    ("options", .obj [
      ("fit", .str fitType),
      ("metadata", .str metaDataToSave),
      ("width", .num width),
      ("height", .num height)]),
    ("neverRequireSignedURLs", .bool neverRequireSignedURLs)]

/-- `createVariant` (lines 82-107). -/
def createVariant (c : Client) (name fitType : String) (width height : Int)
    (metaDataToSave : String) (neverRequireSignedURLs : Bool) : Request :=
  { method := .post
    url := ENDPOINT_BASE ++ "/accounts/" ++ c.accountId ++ "/images/v1/variants"
    headers := requestHeaders c
    body := .json (createVariantPayload name fitType width height metaDataToSave
      neverRequireSignedURLs)
    respMode := .json }

/-- `deleteImage` (lines 109-114). -/
def deleteImage (c : Client) (id : String) : Request :=
  { method := .delete
    url := ENDPOINT_BASE ++ "/accounts/" ++ c.accountId ++ "/images/v1/" ++ id
    headers := requestHeaders c
    body := .empty
    respMode := .json }

/-- `getVariantDetails` (lines 116-121). -/
def getVariantDetails (c : Client) (name : String) : Request :=
  { method := .get
    url := ENDPOINT_BASE ++ "/accounts/" ++ c.accountId ++ "/images/v1/variants/" ++ name
    headers := requestHeaders c
    body := .empty
    respMode := .json }

/-- The fetched `["result"][name]["options"]` dict that `updateVariant`
reads from the `getVariantDetails` response (line 126). -/
structure VariantOptions where
  fit : String
  metadata : String
  width : Int
  height : Int

/-- The JSON payload of the `updateVariant` POST (lines 131-136). On
line 135 of the source the value in the changed branch of the `height`
field is the `width` argument. -/
def updateVariantPayload (details : VariantOptions) (fitType : String) (width height : Int)
    (metaDataToSave : String) : JVal :=
  .obj [
    ("fit", .str (if details.fit ≠ fitType then fitType else details.fit)),
    ("metadata", .str (if details.metadata ≠ metaDataToSave then metaDataToSave
      else details.metadata)),
    ("width", .num (if details.width ≠ width then width else details.width)),
    ("height", .num (if details.height ≠ height then width else details.height))]

/-- `updateVariant` (lines 123-137): the GET of `getVariantDetails name`,
whose response supplies `details`, then the POST of the update payload. -/
def updateVariant (c : Client) (details : VariantOptions) (name fitType : String)
    (width height : Int) (metaDataToSave : String) : List Request :=
  [getVariantDetails c name,
   { method := .post
     url := ENDPOINT_BASE ++ "/accounts/" ++ c.accountId ++ "/images/v1/variants/" ++ name
     headers := requestHeaders c
     body := .json (updateVariantPayload details fitType width height metaDataToSave)
     respMode := .json }]

/-- `deleteVariant` (lines 139-144). -/
def deleteVariant (c : Client) (name : String) : Request :=
  { method := .delete
    url := ENDPOINT_BASE ++ "/accounts/" ++ c.accountId ++ "/images/v1/variants/" ++ name
    headers := requestHeaders c
    body := .empty
    respMode := .json }

/-- `getImageDetails` (lines 146-151). -/
def getImageDetails (c : Client) (id : String) : Request :=
  { method := .get
    url := ENDPOINT_BASE ++ "/accounts/" ++ c.accountId ++ "/images/v1/" ++ id
    headers := requestHeaders c
    body := .empty
    respMode := .json }

/-- `getCustomizedURL` (lines 153-162): pure string construction. -/
def getCustomizedURL (c : Client) (domain imageId variant : String) : String :=
  let domain1 := strLower domain
  let domain2 :=
    if strStartsWith domain1 "http://" then pyReplace domain1 "http://" "https://"
    else if strStartsWith domain1 "https://" then domain1
    else "https://" ++ domain1
  domain2 ++ "/cdn-cgi/imagedelivery/" ++ c.accountHash ++ "/" ++ imageId ++ "/" ++ variant

/-- Domain normalization as the claim words it, for the refinement
comparison: only a LEADING `http://` is rewritten to `https://`; the rest
of the claim's description is unchanged. -/
def getCustomizedURLLeadingOnly (c : Client) (domain imageId variant : String) : String :=
  let domain1 := strLower domain
  let domain2 :=
    if strStartsWith domain1 "http://" then "https://" ++ (⟨domain1.data.drop 7⟩ : String)
    else if strStartsWith domain1 "https://" then domain1
    else "https://" ++ domain1
  domain2 ++ "/cdn-cgi/imagedelivery/" ++ c.accountHash ++ "/" ++ imageId ++ "/" ++ variant

/-- One client method call together with the environment data it consumes
(filesystem contents, server responses), covering every operation of the
class that issues HTTP requests. -/
inductive Operation where
  | listImages : Nat → Nat → Operation
  | createDirectUploadLink : Bool → Option JVal → Option String → Operation
  | upload : (String → Option String) → JVal → String → String → Operation
  | listVariants : Operation
  | createVariant : String → String → Int → Int → String → Bool → Operation
  | deleteImage : String → Operation
  | getVariantDetails : String → Operation
  | updateVariant : VariantOptions → String → String → Int → Int → String → Operation
  | deleteVariant : String → Operation
  | getImageDetails : String → Operation

def Operation.isUpload : Operation → Bool
  | .upload _ _ _ _ => true
  | _ => false

/-- The HTTP requests an operation issues, in order. -/
def requestsOf (c : Client) : Operation → List Request
  | .listImages page perPage => [CloudFlareImages.listImages c page perPage]
  | .createDirectUploadLink rs md ex => [CloudFlareImages.createDirectUploadLink c rs md ex]
  | .upload fs desc path rt =>
    (CloudFlareImages.upload c fs desc path rt).1.filterMap fun e =>
      match e with
      | .httpRequest r => some r
      | .fileOpen _ => none
  | .listVariants => [CloudFlareImages.listVariants c]
  | .createVariant n ft w h m nrsu => [CloudFlareImages.createVariant c n ft w h m nrsu]
  | .deleteImage i => [CloudFlareImages.deleteImage c i]
  | .getVariantDetails n => [CloudFlareImages.getVariantDetails c n]
  | .updateVariant d n ft w h m => CloudFlareImages.updateVariant c d n ft w h m
  | .deleteVariant n => [CloudFlareImages.deleteVariant c n]
  | .getImageDetails i => [CloudFlareImages.getImageDetails c i]

/-! ## Helper lemmas -/

lemma isPrefixOf_append_self (p t : List Char) : List.isPrefixOf p (p ++ t) = true := by
  induction p with
  | nil => simp [List.isPrefixOf]
  | cons c cs ih => simp [List.isPrefixOf, ih]

lemma exists_append_of_isPrefixOf :
    ∀ {p l : List Char}, List.isPrefixOf p l = true → ∃ t, l = p ++ t := by
  intro p
  induction p with
  | nil => intro l _; exact ⟨l, rfl⟩
  | cons c cs ih =>
    intro l h
    cases l with
    | nil => simp [List.isPrefixOf] at h
    | cons b bs =>
      simp only [List.isPrefixOf, Bool.and_eq_true, beq_iff_eq] at h
      obtain ⟨t, ht⟩ := ih h.2
      exact ⟨t, by simp [h.1, ht]⟩

lemma replaceAllAux_of_match {pat rep l : List Char} (hne : pat ≠ [])
    (hpre : List.isPrefixOf pat l = true) :
    ∃ t, replaceAllAux pat rep l 0 = rep ++ t := by
  cases l with
  | nil =>
    cases pat with
    | nil => exact absurd rfl hne
    | cons c cs => simp [List.isPrefixOf] at hpre
  | cons c cs =>
    refine ⟨replaceAllAux pat rep cs (pat.length - 1), ?_⟩
    simp [replaceAllAux, hne, hpre]

lemma all_formats_lower : ∀ fmt ∈ SUPPORTED_FORMATS, strLower fmt = fmt := by decide

/-- Closed form of the `updateVariant` payload: the first three
conditionals collapse to the new argument; the height conditional yields
the `width` argument in its changed branch. -/
lemma updateVariantPayload_eq (d : VariantOptions) (ft : String) (w h : Int) (m : String) :
    updateVariantPayload d ft w h m =
      JVal.obj [("fit", JVal.str ft), ("metadata", JVal.str m),
        ("width", JVal.num w),
        ("height", JVal.num (if h = d.height then d.height else w))] := by
  simp only [updateVariantPayload, ne_eq, ite_not, JVal.obj.injEq, List.cons.injEq,
    Prod.mk.injEq, JVal.str.injEq, JVal.num.injEq, and_true, true_and]
  refine ⟨?_, ?_, ?_, ?_⟩
  · by_cases hf : d.fit = ft <;> simp [hf]
  · by_cases hm : d.metadata = m <;> simp [hm]
  · by_cases hw : d.width = w <;> simp [hw]
  · by_cases hh : d.height = h
    · simp [hh]
    · have hh2 : ¬ h = d.height := fun hx => hh hx.symm
      simp [hh, hh2]

/-! ## Claim theorems -/

/-- C1 counterexample. The claim says every payload field of
`updateVariant` equals the new argument when it differs from the fetched
value, and the fetched value otherwise. With fetched options
`{fit: "cover", metadata: "none", width: 100, height: 200}` and call
arguments `(fitType := "cover", width := 150, height := 250,
metaDataToSave := "keep")`, the claim therefore demands a payload with
`height = 250`; the code emits `height = 150` (the `width` argument), so
the two payloads differ. -/
theorem updateVariant_per_claim_payload_false :
    updateVariantPayload ⟨"cover", "none", 100, 200⟩ "cover" 150 250 "keep" =
      JVal.obj [("fit", JVal.str "cover"), ("metadata", JVal.str "keep"),
        ("width", JVal.num 150), ("height", JVal.num 150)] ∧
    ¬ updateVariantPayload ⟨"cover", "none", 100, 200⟩ "cover" 150 250 "keep" =
      JVal.obj [("fit", JVal.str "cover"), ("metadata", JVal.str "keep"),
        ("width", JVal.num 150), ("height", JVal.num 250)] := by
  constructor
  · simp [updateVariantPayload]
  · simp [updateVariantPayload]

/-- C1 (amended): in `updateVariant`'s POST payload, `fit`, `metadata` and
`width` always equal the new arguments (the compare-and-keep conditional
collapses to the new value in both branches); the `height` field equals
the fetched height when the new height equals it, and otherwise equals the
`width` argument, not the `height` argument. -/
theorem updateVariant_payload_fields :
    ∀ (d : VariantOptions) (ft : String) (w h : Int) (m : String),
      updateVariantPayload d ft w h m =
        JVal.obj [("fit", JVal.str ft), ("metadata", JVal.str m),
          ("width", JVal.num w),
          ("height", JVal.num (if h = d.height then d.height else w))] :=
  fun d ft w h m => updateVariantPayload_eq d ft w h m

/-- C2 counterexample. The claim locates the height defect in the
"unchanged" branch (or, equivalently per the claim, in the comparison
reading the fetched width). With fetched options `{fit: "cover",
metadata: "none", width: 100, height: 200}`: calling with
`height := 100` and `width := 300` (new height differs from the fetched
height 200) emits `height = 300`, the `width` argument — whereas sourcing
the unchanged branch from width with an intact comparison would emit the
new height 100, and comparing against the fetched width 100 would take
the unchanged branch and emit the fetched height 200; and calling with
`height := 200` (equal to the fetched height, the "unchanged" case) emits
`height = 200`, the fetched height, not the fetched width 100. So neither
reading of the claim matches the code: the defect is in the "changed"
branch instead. -/
theorem updateVariant_bug_location_false :
    updateVariantPayload ⟨"cover", "none", 100, 200⟩ "cover" 300 100 "none" =
      JVal.obj [("fit", JVal.str "cover"), ("metadata", JVal.str "none"),
        ("width", JVal.num 300), ("height", JVal.num 300)] ∧
    (300 : Int) ≠ 100 ∧ (300 : Int) ≠ 200 ∧
    updateVariantPayload ⟨"cover", "none", 100, 200⟩ "cover" 100 200 "none" =
      JVal.obj [("fit", JVal.str "cover"), ("metadata", JVal.str "none"),
        ("width", JVal.num 100), ("height", JVal.num 200)] := by
  refine ⟨?_, by decide, by decide, ?_⟩ <;> simp [updateVariantPayload]

/-- C2 (amended): the height defect sits in the "changed" branch: when the
new height argument differs from the fetched height, the emitted `height`
field is the `width` argument; when they are equal, it is the fetched
height (the unchanged branch and the comparison both correctly use
height). -/
theorem updateVariant_height_changed_branch :
    ∀ (d : VariantOptions) (ft : String) (w h : Int) (m : String),
      (h ≠ d.height →
        updateVariantPayload d ft w h m =
          JVal.obj [("fit", JVal.str ft), ("metadata", JVal.str m),
            ("width", JVal.num w), ("height", JVal.num w)]) ∧
      (h = d.height →
        updateVariantPayload d ft w h m =
          JVal.obj [("fit", JVal.str ft), ("metadata", JVal.str m),
            ("width", JVal.num w), ("height", JVal.num d.height)]) := by
  intro d ft w h m
  have h1 := updateVariantPayload_eq d ft w h m
  constructor
  · intro hne
    rw [h1, if_neg hne]
  · intro heq
    rw [h1, if_pos heq]

/-- Witness for C2's amended theorem at fetched height 200 and new height
100. -/
theorem updateVariant_height_changed_branch_witness :
    updateVariantPayload ⟨"cover", "none", 100, 200⟩ "scale-down" 300 100 "keep" =
      JVal.obj [("fit", JVal.str "scale-down"), ("metadata", JVal.str "keep"),
        ("width", JVal.num 300), ("height", JVal.num 300)] :=
  (updateVariant_height_changed_branch ⟨"cover", "none", 100, 200⟩ "scale-down" 300 100
    "keep").1 (by decide)

/-- C4: the `createDirectUploadLink` request carries the built
query-parameter dict; `requireSignedURLs` is always among its keys, while
`metadata` and `expiry` appear among its keys exactly when the
corresponding argument is non-None. -/
theorem createDirectUploadLink_payload_keys :
    ∀ (c : Client) (rs : Bool) (md : Option JVal) (ex : Option String),
      (createDirectUploadLink c rs md ex).body =
        Body.params (createDirectUploadLinkPayload rs md ex) ∧
      "requireSignedURLs" ∈ (createDirectUploadLinkPayload rs md ex).map Prod.fst ∧
      ("metadata" ∈ (createDirectUploadLinkPayload rs md ex).map Prod.fst ↔ md ≠ none) ∧
      ("expiry" ∈ (createDirectUploadLinkPayload rs md ex).map Prod.fst ↔ ex ≠ none) := by
  intro c rs md ex
  refine ⟨rfl, ?_, ?_, ?_⟩ <;>
    cases md <;> cases ex <;> simp [createDirectUploadLinkPayload]

/-- C5: the `listImages` request is the same whatever the `page` and
`perPage` arguments: they are accepted but never used in the URL, headers
or parameters. -/
theorem listImages_ignores_pagination :
    ∀ (c : Client) (page1 perPage1 page2 perPage2 : Nat),
      listImages c page1 perPage1 = listImages c page2 perPage2 :=
  fun _ _ _ _ _ => rfl

/-- C7: the format helper accepts a path exactly when its `splitext`
extension equals one of the allow-list entries up to ASCII case; in
particular it accepts `photo.PNG` and rejects `photo.bmp`. -/
theorem checkIfImageSupported_spec :
    ∀ path : String,
      (_checkIfImageSupported path = true ↔
        ∃ fmt, fmt ∈ SUPPORTED_FORMATS ∧ strLower (splitextExt path) = strLower fmt) ∧
      _checkIfImageSupported "photo.PNG" = true ∧
      _checkIfImageSupported "photo.bmp" = false := by
  intro path
  refine ⟨?_, by decide, by decide⟩
  constructor
  · intro h
    have hmem : strLower (splitextExt path) ∈ SUPPORTED_FORMATS := by
      simpa [_checkIfImageSupported] using h
    refine ⟨strLower (splitextExt path), hmem, ?_⟩
    rw [all_formats_lower _ hmem]
  · rintro ⟨fmt, hmem, heq⟩
    have h2 : strLower (splitextExt path) = fmt := by
      rw [heq, all_formats_lower _ hmem]
    simp [_checkIfImageSupported, h2, hmem]

/-- A string whose character list is `p.data ++ t` starts with `p`. -/
lemma strStartsWith_of_exists {s p : String} (h : ∃ t, s.data = p.data ++ t) :
    strStartsWith s p = true := by
  obtain ⟨t, ht⟩ := h
  show List.isPrefixOf p.data s.data = true
  rw [ht]
  exact isPrefixOf_append_self _ _

/-- Appending on the right preserves having `p` as leading segment. -/
lemma exists_data_append {s p : String} (h : ∃ t, s.data = p.data ++ t) (r : String) :
    ∃ t, (s ++ r).data = p.data ++ t := by
  obtain ⟨t, ht⟩ := h
  exact ⟨t ++ r.data, by rw [String.data_append, ht, List.append_assoc]⟩

/-- C3 counterexample. With domain `http://a.http://b`, Python
`str.replace` rewrites every occurrence of `http://`, so the code returns
`https://a.https://b/...`, while the claim's "leading `http://`
normalized" description gives `https://a.http://b/...`. -/
theorem getCustomizedURL_not_leading_only :
    getCustomizedURL ⟨"k", "acc", "e", "H"⟩ "http://a.http://b" "i" "v" =
      "https://a.https://b/cdn-cgi/imagedelivery/H/i/v" ∧
    getCustomizedURLLeadingOnly ⟨"k", "acc", "e", "H"⟩ "http://a.http://b" "i" "v" =
      "https://a.http://b/cdn-cgi/imagedelivery/H/i/v" ∧
    getCustomizedURL ⟨"k", "acc", "e", "H"⟩ "http://a.http://b" "i" "v" ≠
      getCustomizedURLLeadingOnly ⟨"k", "acc", "e", "H"⟩ "http://a.http://b" "i" "v" :=
  ⟨by decide, by decide, by decide⟩

/-- C3 (amended): `getCustomizedURL` is pure string construction; its
result always starts with `https://`; the inputs `HTTP://Example.com` and
`example.com` yield the identical URL, namely the lower-cased normalized
domain followed by the fixed path. (When the lower-cased domain starts
with `http://`, every occurrence of `http://` in it is replaced by
`https://`, not only the leading one.) -/
theorem getCustomizedURL_https_and_examples :
    ∀ (c : Client) (domain imageId variant : String),
      strStartsWith (getCustomizedURL c domain imageId variant) "https://" = true ∧
      getCustomizedURL c "HTTP://Example.com" imageId variant =
        getCustomizedURL c "example.com" imageId variant ∧
      getCustomizedURL c "example.com" imageId variant =
        "https://example.com/cdn-cgi/imagedelivery/" ++ c.accountHash ++ "/" ++ imageId
          ++ "/" ++ variant := by
  intro c domain imageId variant
  refine ⟨?_, rfl, rfl⟩
  show strStartsWith (getCustomizedURL c domain imageId variant) "https://" = true
  unfold getCustomizedURL
  apply strStartsWith_of_exists
  apply exists_data_append
  apply exists_data_append
  apply exists_data_append
  apply exists_data_append
  apply exists_data_append
  apply exists_data_append
  by_cases h1 : strStartsWith (strLower domain) "http://" = true
  · rw [if_pos h1]
    exact replaceAllAux_of_match (by decide) h1
  · rw [if_neg h1]
    by_cases h2 : strStartsWith (strLower domain) "https://" = true
    · rw [if_pos h2]
      exact exists_append_of_isPrefixOf h2
    · rw [if_neg h2]
      exact ⟨(strLower domain).data, String.data_append "https://" (strLower domain)⟩

/-- C6: every HTTP request issued by any operation carries exactly the
two auth headers `X-Auth-Key` (the constructor's `apiKey`) and
`X-Auth-Email` (the constructor's `email`). -/
theorem auth_headers_on_every_request :
    ∀ (c : Client) (op : Operation), ∀ r ∈ requestsOf c op,
      r.headers = [("X-Auth-Key", c.apiKey), ("X-Auth-Email", c.email)] := by
  intro c op r hr
  cases op with
  | listImages p pp =>
    simp only [requestsOf, List.mem_singleton] at hr
    subst hr; rfl
  | createDirectUploadLink rs md ex =>
    simp only [requestsOf, List.mem_singleton] at hr
    subst hr; rfl
  | upload fs desc path rt =>
    simp only [requestsOf, CloudFlareImages.upload] at hr
    cases hfp : fs path with
    | none => rw [hfp] at hr; simp at hr
    | some content =>
      rw [hfp] at hr
      cases hdu : descUploadURL desc with
      | error e => rw [hdu] at hr; simp at hr
      | ok url =>
        rw [hdu] at hr
        simp only [List.filterMap_cons, List.filterMap_nil] at hr
        simp only [List.mem_singleton] at hr
        subst hr; rfl
  | listVariants =>
    simp only [requestsOf, List.mem_singleton] at hr
    subst hr; rfl
  | createVariant n ft w h m nrsu =>
    simp only [requestsOf, List.mem_singleton] at hr
    subst hr; rfl
  | deleteImage i =>
    simp only [requestsOf, List.mem_singleton] at hr
    subst hr; rfl
  | getVariantDetails n =>
    simp only [requestsOf, List.mem_singleton] at hr
    subst hr; rfl
  | updateVariant d n ft w h m =>
    simp only [requestsOf, CloudFlareImages.updateVariant, List.mem_cons,
      List.mem_singleton, List.not_mem_nil, or_false] at hr
    rcases hr with hr | hr <;> (subst hr; rfl)
  | deleteVariant n =>
    simp only [requestsOf, List.mem_singleton] at hr
    subst hr; rfl
  | getImageDetails i =>
    simp only [requestsOf, List.mem_singleton] at hr
    subst hr; rfl

/-- Witness for C6 at a concrete client and operation. -/
theorem auth_headers_on_every_request_witness :
    (CloudFlareImages.listVariants ⟨"KEY", "ACC", "MAIL", "HASH"⟩).headers =
      [("X-Auth-Key", "KEY"), ("X-Auth-Email", "MAIL")] :=
  auth_headers_on_every_request ⟨"KEY", "ACC", "MAIL", "HASH"⟩ Operation.listVariants
    (CloudFlareImages.listVariants ⟨"KEY", "ACC", "MAIL", "HASH"⟩)
    (List.mem_singleton.mpr rfl)

/-- C8: whenever the file can be read and the descriptor supplies an
upload URL, `upload` issues its multipart POST — the hypotheses mention
neither the path's extension nor the content's size, so the request goes
out for unsupported formats and arbitrary sizes alike; the format helper
and the limit constants are never consulted. -/
theorem upload_ignores_format_limits :
    ∀ (c : Client) (fs : String → Option String) (desc : JVal)
      (path rt content url : String),
      fs path = some content →
      descUploadURL desc = Except.ok url →
      upload c fs desc path rt =
        ([Event.fileOpen path, Event.httpRequest (uploadRequest c url content)],
         Except.ok rt) := by
  intro c fs desc path rt content url hfs hurl
  simp [upload, hfs, hurl]

/-- Witness for C8: the upload of `photo.bmp` — rejected by the (unused)
format helper — still issues its request. -/
theorem upload_ignores_format_limits_witness :
    _checkIfImageSupported "photo.bmp" = false ∧
    upload ⟨"KEY", "ACC", "MAIL", "HASH"⟩
        (fun p => if p = "photo.bmp" then some "BMPDATA" else none)
        (JVal.obj [("result", JVal.obj [("uploadURL", JVal.str "https://x/up")])])
        "photo.bmp" "raw" =
      ([Event.fileOpen "photo.bmp",
        Event.httpRequest
          (uploadRequest ⟨"KEY", "ACC", "MAIL", "HASH"⟩ "https://x/up" "BMPDATA")],
       Except.ok "raw") :=
  ⟨by decide,
   upload_ignores_format_limits ⟨"KEY", "ACC", "MAIL", "HASH"⟩
     (fun p => if p = "photo.bmp" then some "BMPDATA" else none)
     (JVal.obj [("result", JVal.obj [("uploadURL", JVal.str "https://x/up")])])
     "photo.bmp" "raw" "BMPDATA" "https://x/up" rfl rfl⟩

/-- C9: when the file is missing/unreadable, `upload` stops with an
IOError before issuing any request; on success it returns the raw
response text and its request is read as text, while every request of
every non-upload operation is read as decoded JSON. -/
theorem upload_io_error_and_raw_text :
    ∀ (c : Client) (fs : String → Option String) (desc : JVal) (path rt : String),
      (fs path = none →
        upload c fs desc path rt = ([], Except.error UploadErr.ioError)) ∧
      (∀ content url, fs path = some content → descUploadURL desc = Except.ok url →
        upload c fs desc path rt =
          ([Event.fileOpen path, Event.httpRequest (uploadRequest c url content)],
           Except.ok rt) ∧
        (uploadRequest c url content).respMode = RespMode.text) ∧
      (∀ op : Operation, op.isUpload = false →
        ∀ r ∈ requestsOf c op, r.respMode = RespMode.json) := by
  intro c fs desc path rt
  refine ⟨?_, ?_, ?_⟩
  · intro hfs
    simp [upload, hfs]
  · intro content url hfs hurl
    exact ⟨by simp [upload, hfs, hurl], rfl⟩
  · intro op hop r hr
    cases op with
    | listImages p pp =>
      simp only [requestsOf, List.mem_singleton] at hr
      subst hr; rfl
    | createDirectUploadLink rs md ex =>
      simp only [requestsOf, List.mem_singleton] at hr
      subst hr; rfl
    | upload fs2 desc2 path2 rt2 => simp [Operation.isUpload] at hop
    | listVariants =>
      simp only [requestsOf, List.mem_singleton] at hr
      subst hr; rfl
    | createVariant n ft w h m nrsu =>
      simp only [requestsOf, List.mem_singleton] at hr
      subst hr; rfl
    | deleteImage i =>
      simp only [requestsOf, List.mem_singleton] at hr
      subst hr; rfl
    | getVariantDetails n =>
      simp only [requestsOf, List.mem_singleton] at hr
      subst hr; rfl
    | updateVariant d n ft w h m =>
      simp only [requestsOf, CloudFlareImages.updateVariant, List.mem_cons,
        List.mem_singleton, List.not_mem_nil, or_false] at hr
      rcases hr with hr | hr <;> (subst hr; rfl)
    | deleteVariant n =>
      simp only [requestsOf, List.mem_singleton] at hr
      subst hr; rfl
    | getImageDetails i =>
      simp only [requestsOf, List.mem_singleton] at hr
      subst hr; rfl

/-- Witness for C9 on an empty filesystem: IOError and no events. -/
theorem upload_io_error_and_raw_text_witness :
    upload ⟨"KEY", "ACC", "MAIL", "HASH"⟩ (fun _ => none) (JVal.obj []) "missing.png" "raw" =
      ([], Except.error UploadErr.ioError) :=
  (upload_io_error_and_raw_text ⟨"KEY", "ACC", "MAIL", "HASH"⟩ (fun _ => none)
    (JVal.obj []) "missing.png" "raw").1 rfl

/-- C10: when the descriptor dict lacks `result`, or its `result` dict
lacks `uploadURL`, `upload` stops with a KeyError after the file has been
opened (the open precedes the subscripts) and issues no HTTP request. -/
theorem upload_missing_descriptor_key :
    ∀ (c : Client) (fs : String → Option String) (desc : JVal) (path rt content : String),
      fs path = some content →
      (jSub desc "result" = Except.error UploadErr.keyError ∨
        (∃ r, jSub desc "result" = Except.ok r ∧
          jSub r "uploadURL" = Except.error UploadErr.keyError)) →
      upload c fs desc path rt =
        ([Event.fileOpen path], Except.error UploadErr.keyError) := by
  intro c fs desc path rt content hfs hdesc
  have hurl : descUploadURL desc = Except.error UploadErr.keyError := by
    rcases hdesc with h | ⟨r, hjr, hju⟩
    · simp [descUploadURL, h]
    · simp [descUploadURL, hjr, hju]
  simp [upload, hfs, hurl]

/-- Witness for C10: a descriptor without the `result` key. -/
theorem upload_missing_descriptor_key_witness :
    upload ⟨"KEY", "ACC", "MAIL", "HASH"⟩ (fun _ => some "DATA") (JVal.obj [])
        "img.png" "raw" =
      ([Event.fileOpen "img.png"], Except.error UploadErr.keyError) :=
  upload_missing_descriptor_key ⟨"KEY", "ACC", "MAIL", "HASH"⟩ (fun _ => some "DATA")
    (JVal.obj []) "img.png" "raw" "DATA" rfl (Or.inl rfl)

end CloudFlareImages
